import Mathlib

/-!
Verification development for the intent-resolution and event-extraction
pipeline of the `mcp_server` repository (src/main.py `TelegramAIAgent` and
src/app.py).

Shallow embedding conventions:
* Python strings are modelled as `List Char`; `str.lower` as
  `List.map Char.toLower` (ASCII-faithful, which covers every keyword and
  literal the code compares against).
* Python regex character classes `\d` / `\s` are modelled by the decidable
  ASCII predicates `isPyDigit` / `isPySpace` (Python would additionally
  accept non-ASCII digits/spaces; none occur in the spec or in the claims).
* `datetime` values are modelled by `DT` (day index, hour, minute); seconds
  and microseconds are zeroed by the source before any use.  `timedelta`
  addition is total-minute arithmetic (`DT.toMin` / `minToDT`).
* Fallible Python code is embedded as `Except`/`Option`: a raised-and-caught
  exception becomes `Except.error` carrying `str(e)`.
-/

/-- ASCII decimal digit, the model of regex `\d` (src/main.py regexes). -/
def isPyDigit (c : Char) : Bool := 48 ≤ c.toNat && c.toNat ≤ 57

/-- ASCII whitespace accepted by Python `\s` and `str.strip`/`str.split`:
space, tab, newline, carriage return, vertical tab, form feed. -/
def isPySpace (c : Char) : Bool :=
  c.toNat = 32 || c.toNat = 9 || c.toNat = 10 || c.toNat = 13 || c.toNat = 11 || c.toNat = 12

/-- The apostrophe character (codepoint 39). -/
def apos : Char := Char.ofNat 39

/-- Numeric value of an ASCII digit. -/
def dval (c : Char) : Nat := c.toNat - 48

/-- Value of a digit run, e.g. `int(match.group(1))` on a `\d+` group. -/
def digitsToNat (ds : List Char) : Nat := ds.foldl (fun acc c => 10 * acc + dval c) 0

/-- Contiguous-substring test: model of Python `in` on strings and of an
unanchored `re.search` for a literal pattern. -/
def infixB (pat : List Char) : List Char → Bool
  | [] => pat.isEmpty
  | c :: rest => pat.isPrefixOf (c :: rest) || infixB pat rest

/-- Correctness of `infixB`: it decides `List.IsInfix`. -/
theorem infixB_iff (pat s : List Char) : infixB pat s = true ↔ pat <:+: s := by
  induction s with
  | nil => simp [infixB, List.isEmpty_iff]
  | cons c rest ih =>
    simp only [infixB, Bool.or_eq_true, List.isPrefixOf_iff_prefix, ih,
      List.infix_cons_iff]

/-- Python `str.strip()`: drop whitespace from both ends. -/
def pyStrip (s : List Char) : List Char :=
  ((s.dropWhile isPySpace).reverse.dropWhile isPySpace).reverse

/-- Fueled worker for `pySplit`. -/
def pySplitF : Nat → List Char → List (List Char)
  | 0, _ => []
  | fuel + 1, s =>
    let s1 := s.dropWhile isPySpace
    match s1 with
    | [] => []
    | _ :: _ =>
      s1.takeWhile (fun c => !isPySpace c) ::
        pySplitF fuel (s1.dropWhile (fun c => !isPySpace c))

/-- Python `str.split()` with no argument: split on whitespace runs,
discarding empty fields.  The fuel `s.length` is sufficient because every
emitted field consumes at least one character. -/
def pySplit (s : List Char) : List (List Char) := pySplitF s.length s

/-- Fueled worker for `pyReplace`. -/
def pyReplaceF (pat : List Char) : Nat → List Char → List Char
  | 0, s => s
  | _ + 1, [] => []
  | fuel + 1, c :: rest =>
    if pat.isPrefixOf (c :: rest) && !pat.isEmpty then
      pyReplaceF pat fuel ((c :: rest).drop pat.length)
    else
      c :: pyReplaceF pat fuel rest

/-- Python `str.replace(pat, '')` for a non-empty `pat`: remove every
non-overlapping occurrence, scanning left to right.  (For the empty pattern
this model is the identity; the source only ever replaces non-empty
literals.) -/
def pyReplace (s pat : List Char) : List Char := pyReplaceF pat s.length s

/-- A wall-clock instant as used by `parse_event_manually`: day index (days
since an arbitrary epoch), hour, minute.  Seconds/microseconds are zeroed by
the source (`replace(second=0, microsecond=0)`), so they are omitted. -/
structure DT where
  day : Nat
  hour : Nat
  minute : Nat
deriving DecidableEq

/-- Total minutes represented by a `DT`; `datetime` comparison and
`timedelta` arithmetic are linear in this value. -/
def DT.toMin (t : DT) : Nat := (t.day * 24 + t.hour) * 60 + t.minute

/-- Inverse of `DT.toMin`: normalize total minutes back into day/hour/minute,
the model of `datetime + timedelta` carrying over midnight. -/
def minToDT (m : Nat) : DT := ⟨m / 1440, m % 1440 / 60, m % 60⟩

theorem toMin_minToDT (m : Nat) : (minToDT m).toMin = m := by
  simp only [minToDT, DT.toMin]
  omega

/-- The event draft `parse_event_manually` hands to `create_calendar_event`
(src/main.py lines 347-352). -/
structure EventDraft where
  title : List Char
  start_time : DT
  end_time : DT
  description : List Char
deriving DecidableEq

/-! ### Title extraction (src/main.py lines 298-302)

`re.search` of pattern `^(.*?)(?:\s+(?:at|on|tomorrow|today|next|this))` over `message.lower()`.
The pattern is anchored at the start; the lazy `(.*?)` group is the shortest
prefix (containing no newline, since `.` does not match `\n`) that is
immediately followed by one-or-more whitespace and then one of the literal
cue words (no word boundary is required by the pattern). -/

/-- The cue words of the title regex alternation. -/
def cueWords : List (List Char) :=
  [("at").data, ("on").data, ("tomorrow").data, ("today").data,
   ("next").data, ("this").data]

/-- Does `\s+(?:at|on|tomorrow|today|next|this)` match at the head of `l`?
Since no cue word starts with whitespace, the greedy-with-backtracking `\s+`
is equivalent to: first char is whitespace, and after dropping all leading
whitespace a cue word is a prefix. -/
def cueAt : List Char → Bool
  | [] => false
  | c :: r => isPySpace c && cueWords.any (fun w => w.isPrefixOf (r.dropWhile isPySpace))

/-- Worker for `titleSplit`: `acc` holds the reversed prefix scanned so far. -/
def titleSplitGo (acc : List Char) : List Char → Option (List Char)
  | [] => none
  | c :: r =>
    if cueAt (c :: r) then some acc.reverse
    else if c = Char.ofNat 10 then none
    else titleSplitGo (c :: acc) r

/-- Group 1 of the title regex: the shortest newline-free prefix followed
by whitespace and a cue word, or `none` when the regex does not match. -/
def titleSplit (s : List Char) : Option (List Char) := titleSplitGo [] s

/-! ### Time patterns (src/main.py lines 305-329)

The loop tries three patterns over `message.lower()`, in order:
1. `(\d{1,2})\s*(?::|\.)\s*(\d{2})\s*(am|pm)?`  — 3 groups.  When it matches,
   the source evaluates `len(match.groups()) >= 3 and match.group(-1)`; the
   length test is true, and `match.group(-1)` raises `IndexError` ("no such
   group") (Python raises for negative group numbers), so the whole
   function returns via its `except` branch.
2. `(\d{1,2})\s*(am|pm)` — 2 groups, so `len(match.groups()) >= 3` is false
   and the AM/PM adjustment block is skipped: the hour is used unadjusted.
3. `(\d{1,2})\s*` then `oclock` with an optional apostrophe after the `o` — 1 group, adjustment likewise skipped.
-/

/-- Two ASCII digits at the head of the list (`(\d{2})`). -/
def twoDigitsAt : List Char → Bool
  | a :: b :: _ => isPyDigit a && isPyDigit b
  | _ => false

/-- After the hour digits of pattern 1: `\s*(?::|\.)\s*(\d{2})`.  Neither a
colon/dot nor a digit is whitespace, so greedy `\s*` needs no backtracking. -/
def p1AfterHour (l : List Char) : Bool :=
  match l.dropWhile isPySpace with
  | c :: r => (c = ':' || c = '.') && twoDigitsAt (r.dropWhile isPySpace)
  | [] => false

/-- Does pattern 1 match starting at the head of `l`?  `\d{1,2}` backtracks,
so one- and two-digit hours are both tried. -/
def p1At : List Char → Bool
  | [] => false
  | a :: r =>
    isPyDigit a &&
      (p1AfterHour r ||
        (match r with
         | b :: r2 => isPyDigit b && p1AfterHour r2
         | [] => false))

/-- Does pattern 1 match anywhere (`re.search`)? -/
def p1Search : List Char → Bool
  | [] => false
  | c :: r => p1At (c :: r) || p1Search r

/-- Matches `\s*(am|pm)` at the head of `l` (the meridiem letters are not
whitespace, so greedy `\s*` is exact). -/
def amPmAt (l : List Char) : Bool :=
  let l1 := l.dropWhile isPySpace
  ("am").data.isPrefixOf l1 || ("pm").data.isPrefixOf l1

/-- Pattern 2 (`(\d{1,2})\s*(am|pm)`) at the head of `l`, returning the hour
group value.  Greedy `\d{1,2}` prefers two digits, backtracking to one. -/
def p2At : List Char → Option Nat
  | a :: b :: r2 =>
    if isPyDigit a && isPyDigit b && amPmAt r2 then some (10 * dval a + dval b)
    else if isPyDigit a && amPmAt (b :: r2) then some (dval a)
    else none
  | _ => none

/-- Leftmost pattern-2 match (`re.search`). -/
def p2Search : List Char → Option Nat
  | [] => none
  | c :: r =>
    match p2At (c :: r) with
    | some h => some h
    | none => p2Search r

/-- Matches `\s*` then `oclock` (optional apostrophe after the `o`) at the head of `l`. -/
def oclockAt (l : List Char) : Bool :=
  let l1 := l.dropWhile isPySpace
  ("oclock").data.isPrefixOf l1 ||
    (("o").data ++ [apos] ++ ("clock").data).isPrefixOf l1

/-- Pattern 3 (`(\d{1,2})\s*` then the oclock literal) at the head of `l`. -/
def p3At : List Char → Option Nat
  | a :: b :: r2 =>
    if isPyDigit a && isPyDigit b && oclockAt r2 then some (10 * dval a + dval b)
    else if isPyDigit a && oclockAt (b :: r2) then some (dval a)
    else none
  | [a] => if isPyDigit a && oclockAt [] then some (dval a) else none
  | [] => none

/-- Leftmost pattern-3 match. -/
def p3Search : List Char → Option Nat
  | [] => none
  | c :: r =>
    match p3At (c :: r) with
    | some h => some h
    | none => p3Search r

/-- The hour produced by the time-pattern loop when pattern 1 does not match
anywhere: pattern 2 first, then pattern 3 (minute is 0 for both). -/
def extractedHour (ml : List Char) : Option Nat :=
  match p2Search ml with
  | some h => some h
  | none => p3Search ml

/-! ### Duration (src/main.py lines 332-334)

`re.search` of pattern `(\d+)\s*(?:hour|hr)s?` over `message.lower()`.  At a given start
position only the maximal digit run can succeed: if `\d+` backtracks to a
shorter run, the next character is a digit, which matches neither `\s` nor
`h`.  The group value is therefore the maximal digit run at the leftmost
position whose run is followed (after whitespace) by `hour` or `hr`. -/

/-- Duration pattern at the head of `l`: maximal digit run, then `\s*`, then
`hour` or `hr` (the optional trailing `s` does not affect matching). -/
def durAt (l : List Char) : Option Nat :=
  match l with
  | [] => none
  | c :: _ =>
    if isPyDigit c then
      let ds := l.takeWhile isPyDigit
      let r1 := (l.dropWhile isPyDigit).dropWhile isPySpace
      if ("hour").data.isPrefixOf r1 || ("hr").data.isPrefixOf r1 then
        some (digitsToNat ds)
      else none
    else none

/-- Leftmost duration match. -/
def durSearch : List Char → Option Nat
  | [] => none
  | c :: r =>
    match durAt (c :: r) with
    | some n => some n
    | none => durSearch r

/-- The value of `duration = timedelta(hours=N)` if the duration regex matched, else the
default 1 hour. -/
def durationHours (ml : List Char) : Nat :=
  match durSearch ml with
  | some n => n
  | none => 1

/-! ### The fallback event builder `parse_event_manually` (src/main.py 287-362) -/

/-- Title step (src/main.py 299-302): group 1 of the title regex over the
lowercased message, stripped; when the regex does not match, the first three
whitespace-separated tokens of the original message joined by single spaces. -/
def titleOf (message : List Char) : List Char :=
  match titleSplit (message.map Char.toLower) with
  | some t => pyStrip t
  | none => List.intercalate [' '] ((pySplit message).take 3)

/-- Date-keyword override (src/main.py 337-342): `today` resets the date
component to the current day keeping the chosen hour/minute; `tomorrow` keeps
the already-tomorrow base; `next week` adds 7 days to whatever date is set. -/
def dateAdjust (now st0 : DT) (ml : List Char) : DT :=
  if infixB ("today").data ml = true then ⟨now.day, st0.hour, st0.minute⟩
  else if infixB ("tomorrow").data ml = true then st0
  else if infixB ("next week").data ml = true then ⟨st0.day + 7, st0.hour, st0.minute⟩
  else st0

/-- Draft construction (src/main.py 331-352) once a start instant `st0` has
been chosen: duration scan, date-keyword override, `end_time = start_time +
duration`, and the "title or New-Event" defaulting. -/
def buildDraft (now : DT) (message : List Char) (st0 : DT) : EventDraft :=
  let ml := message.map Char.toLower
  let st := dateAdjust now st0 ml
  { title := if titleOf message = [] then ("New Event").data else titleOf message
    start_time := st
    end_time := minToDT (st.toMin + 60 * durationHours ml)
    description := ("Created from: ").data ++ message }

/-- The fallback event builder `parse_event_manually` (src/main.py 287-362),
up to the draft handed to `create_calendar_event`.  `Except.error` is the
`except Exception` branch, carrying `str(e)`:
* when time-pattern 1 matches, `match.group(-1)` raises
  `IndexError` ("no such group");
* when the chosen hour exceeds 23 (patterns allow up to two digits),
  `datetime.replace` raises `ValueError` ("hour must be in 0..23").
The starting instant before the date-keyword override is
`now.replace(hour=10, minute=0) + timedelta(days=1)` with the extracted hour
substituted when a pattern matched (minute is always 0 for patterns 2/3). -/
def parseEventManually (now : DT) (message : List Char) : Except (List Char) EventDraft :=
  let ml := message.map Char.toLower
  if p1Search ml = true then Except.error ("no such group").data
  else
    match extractedHour ml with
    | some h =>
      if 24 ≤ h then Except.error ("hour must be in 0..23").data
      else Except.ok (buildDraft now message ⟨now.day + 1, h, 0⟩)
    | none => Except.ok (buildDraft now message ⟨now.day + 1, 10, 0⟩)

/-! ### Intent classifier `analyze_intent` (src/main.py 364-396) -/

/-- The classified action, with the variant-specific fields the source
attaches (src/main.py 376-396). -/
inductive IntentAction
  | searchGmail (query : List Char)
  | createCalendarEvent (title query : List Char)
  | getCalendar
  | createTask (title : List Char)
  | getTasks
  | chat
deriving DecidableEq

def gmailKeywords : List (List Char) :=
  [("email").data, ("gmail").data, ("mail").data, ("inbox").data,
   ("search").data, ("unread").data, ("from:").data, ("subject:").data]

def calendarCreateKeywords : List (List Char) :=
  [("meeting").data, ("appointment").data, ("schedule").data, ("event").data,
   ("remind me at").data, ("book").data, ("plan").data]

def calendarViewKeywords : List (List Char) :=
  [("calendar").data, ("events").data, ("what\u0027s on").data,
   ("meetings today").data, ("agenda").data]

def taskCreateKeywords : List (List Char) :=
  [("task").data, ("todo").data, ("add task").data, ("reminder").data,
   ("remember to").data, ("need to").data]

def taskViewKeywords : List (List Char) :=
  [("tasks").data, ("todo list").data, ("what tasks").data, ("my tasks").data]

/-- Model of `any(keyword in message_lower for keyword in kws)`. -/
def anyKw (kws : List (List Char)) (ml : List Char) : Bool :=
  kws.any (fun k => infixB k ml)

/-- The intent classifier `analyze_intent` (src/main.py 364-396): lowercase
the message, then test the five keyword sets in fixed order, falling through
to `chat`. -/
def analyzeIntent (msg : List Char) : IntentAction :=
  let ml := msg.map Char.toLower
  if anyKw gmailKeywords ml = true then IntentAction.searchGmail msg
  else if anyKw calendarCreateKeywords ml = true then IntentAction.createCalendarEvent msg msg
  else if anyKw calendarViewKeywords ml = true then IntentAction.getCalendar
  else if anyKw taskCreateKeywords ml = true then IntentAction.createTask msg
  else if anyKw taskViewKeywords ml = true then IntentAction.getTasks
  else IntentAction.chat

/-! ### LLM completion client `ai_chat` (src/main.py 664-717) -/

/-- Abstract outcome of the single `httpx` POST inside `ai_chat`:
* `response status content` — the request returned with `status`;
  `content = some t` means the body was well-formed
  (the content field at the fixed JSON path is the text `t`), while
  `content = none` means body decoding or key lookup raises (only reachable
  on the 200 path, where the body is inspected);
* `raised msg` — the request itself raised (network error, timeout), with
  `str(e) = msg`. -/
inductive HttpOutcome
  | response (status : Nat) (content : Option (List Char))
  | raised (msg : List Char)
deriving DecidableEq

/-- The dictionary `ai_chat` returns.  A missing `success` key is modelled
as `false` and a missing `error` key as `none`. -/
structure Envelope where
  response : List Char
  success : Bool
  error : Option (List Char)
deriving DecidableEq

/-- Fixed apology of the non-200 branch (src/main.py 708-711). -/
def apologyStatus : List Char := ("Sorry, I couldn\u0027t process your request.").data

/-- Fixed apology of the `except` branch (src/main.py 712-717). -/
def apologyExc : List Char := ("Sorry, there was an error processing your request.").data

/-- The LLM completion client `ai_chat` (src/main.py 664-717): on HTTP 200
with a well-formed body, the completion text with `success: True`; on a
malformed 200 body the key error propagates to the `except` branch; on any
other status the fixed status apology with an `AI API error` message; on a
raised transport error the fixed exception apology.  Total by construction:
every branch returns an envelope, never raises. -/
def aiChat (o : HttpOutcome) : Envelope :=
  match o with
  | HttpOutcome.response status content =>
    if status = 200 then
      match content with
      | some t => { response := t, success := true, error := none }
      | none =>
        { response := apologyExc, success := false,
          error := some (("body extraction failed").data) }
    else
      { response := apologyStatus, success := false,
        error := some (("AI API error: ").data ++ Nat.toDigits 10 status) }
  | HttpOutcome.raised m =>
    { response := apologyExc, success := false, error := some m }

/-! ### JSON location and parsing in `handle_calendar_creation` (src/main.py 448-468) -/

/-- Opening brace character. -/
def lbraceC : Char := Char.ofNat 123

/-- Closing brace character. -/
def rbraceC : Char := Char.ofNat 125

/-- Double-quote character. -/
def quoteC : Char := Char.ofNat 34

/-- Backslash character. -/
def bslashC : Char := Char.ofNat 92

/-- Worker for `jsonExtract`: after an opening brace, take characters up to
and including the first closing brace (this is what greedy `[^}]*` followed
by a literal closing brace matches). -/
def extractAfterBrace : List Char → Option (List Char)
  | [] => none
  | c :: r =>
    if c = rbraceC then some [c]
    else (extractAfterBrace r).map (fun t => c :: t)

/-- Model of `re.search` for the brace pattern (an opening brace, then any
run of non-closing-brace characters, then a closing brace) with `re.DOTALL`
(src/main.py 450): the substring from the first opening brace through the
first closing brace after it.  If the first opening brace has no closing
brace after it, no later opening brace has one either, so the search fails. -/
def jsonExtract : List Char → Option (List Char)
  | [] => none
  | c :: r =>
    if c = lbraceC then (extractAfterBrace r).map (fun t => c :: t)
    else jsonExtract r

/-- JSON token whitespace (space, tab, newline, carriage return). -/
def isJsonWs (c : Char) : Bool :=
  c.toNat = 32 || c.toNat = 9 || c.toNat = 10 || c.toNat = 13

/-- A scalar JSON value.  The brace-located substring contains no closing
brace except its last character, so a successfully parsing object is flat;
nested objects cannot occur, and composite array values are not modelled
(the extraction prompt mandates plain string fields). -/
inductive JVal
  | jstr (s : List Char)
  | jnum (s : List Char)
  | jtrue
  | jfalse
  | jnull
deriving DecidableEq

/-- Parse a JSON string body after its opening quote; returns the content
and the remainder after the closing quote.  An escaped character is taken
literally (covers the escaped quote and backslash; exotic escape sequences
are not validated, matching `json.loads` on the inputs this development
evaluates). -/
def parseStr : List Char → Option (List Char × List Char)
  | [] => none
  | c :: r =>
    if c = quoteC then some ([], r)
    else if c = bslashC then
      match r with
      | e :: r2 => (parseStr r2).map (fun p => (e :: p.1, p.2))
      | [] => none
    else (parseStr r).map (fun p => (c :: p.1, p.2))

/-- Characters a loose JSON number may contain. -/
def isNumChar (c : Char) : Bool :=
  isPyDigit c || c = '-' || c = '+' || c = '.' || c = 'e' || c = 'E'

/-- Parse one scalar JSON value at the head of `s`. -/
def parseVal (s : List Char) : Option (JVal × List Char) :=
  match s with
  | [] => none
  | c :: r =>
    if c = quoteC then (parseStr r).map (fun p => (JVal.jstr p.1, p.2))
    else if ("true").data.isPrefixOf s then some (JVal.jtrue, s.drop 4)
    else if ("false").data.isPrefixOf s then some (JVal.jfalse, s.drop 5)
    else if ("null").data.isPrefixOf s then some (JVal.jnull, s.drop 4)
    else
      let num := s.takeWhile isNumChar
      if num.isEmpty then none else some (JVal.jnum num, s.drop num.length)

/-- Fueled parser for the comma-separated members of a JSON object; stops
before the character that ends the member list.  The fuel bounds the number
of members, each of which consumes at least one character. -/
def parseMembers : Nat → List Char → Option (List (List Char × JVal) × List Char)
  | 0, _ => none
  | fuel + 1, s =>
    match s.dropWhile isJsonWs with
    | [] => none
    | c :: r =>
      if c = quoteC then
        match parseStr r with
        | none => none
        | some (key, r2) =>
          match r2.dropWhile isJsonWs with
          | c2 :: r4 =>
            if c2 = ':' then
              match parseVal (r4.dropWhile isJsonWs) with
              | none => none
              | some (v, r5) =>
                match r5.dropWhile isJsonWs with
                | c3 :: r7 =>
                  if c3 = ',' then
                    (parseMembers fuel r7).map (fun p => ((key, v) :: p.1, p.2))
                  else some ([(key, v)], c3 :: r7)
                | [] => some ([(key, v)], [])
            else none
          | [] => none
      else none

/-- Model of `json.loads` on the brace-located substring: a flat JSON object
with string keys and scalar values, as an association list in source order. -/
def jsonParseFlat (s : List Char) : Option (List (List Char × JVal)) :=
  match s.dropWhile isJsonWs with
  | [] => none
  | c :: r =>
    if c = lbraceC then
      match r.dropWhile isJsonWs with
      | c2 :: r2 =>
        if c2 = rbraceC then
          if (r2.dropWhile isJsonWs).isEmpty then some [] else none
        else
          match parseMembers s.length r with
          | none => none
          | some (obj, rest) =>
            match rest.dropWhile isJsonWs with
            | c3 :: r3 =>
              if c3 = rbraceC && (r3.dropWhile isJsonWs).isEmpty then some obj
              else none
            | [] => none
      | [] => none
    else none

/-! ### Calendar-creation handler `handle_calendar_creation` (src/main.py 418-474) -/

/-- How the handler resolves, up to the external calendar call:
* `created details` — validated JSON details are passed to
  `create_calendar_event`;
* `validationErr` — JSON parsed but a required field is missing; the
  handler returns the "Could not parse event details" reply to the caller;
* `fallback message` — `parse_event_manually(message)` is invoked. -/
inductive CalResult
  | created (details : List (List Char × JVal))
  | validationErr
  | fallback (message : List Char)
deriving DecidableEq

/-- The required fields validated at src/main.py 456. -/
def requiredKeys : List (List Char) :=
  [("title").data, ("start_time").data, ("end_time").data]

/-- Model of the Python `in` test on the parsed JSON dictionary. -/
def hasKey (obj : List (List Char × JVal)) (k : List Char) : Bool :=
  obj.any (fun p => p.1 = k)

/-- The decision structure of `handle_calendar_creation` (src/main.py
418-474) for a CreateEvent message, as a function of the abstract outcome of
the completion request: locate a brace substring in the `response` field of
the `ai_chat` envelope; if none is found, or it fails to parse as JSON, fall
back to `parse_event_manually` with the original message; if it parses,
require `title`, `start_time`, `end_time` and otherwise return the
validation-error reply (without falling back and without fabricating
values). -/
def handleCalendarCreation (message : List Char) (o : HttpOutcome) : CalResult :=
  match jsonExtract (aiChat o).response with
  | none => CalResult.fallback message
  | some sub =>
    match jsonParseFlat sub with
    | none => CalResult.fallback message
    | some obj =>
      if requiredKeys.all (fun k => hasKey obj k) = true then CalResult.created obj
      else CalResult.validationErr

/-! ### Task-creation handler `handle_task_creation` (src/main.py 476-489) -/

/-- The title derivation at src/main.py 479:
`intent.get("title", "").replace("add task", "").replace("task:", "").strip()`
(the intent title is the raw message for the create-task intent). -/
def strippedTitle (msg : List Char) : List Char :=
  pyStrip (pyReplace (pyReplace msg (("add task").data)) (("task:").data))

/-- Outcome of `handle_task_creation`: the reply string and the list of
titles passed to `create_task` (at most one call is made). -/
structure TaskOutcome where
  reply : List Char
  creates : List (List Char)
deriving DecidableEq

/-- The validation reply for an empty stripped title (src/main.py 481). -/
def noTitleReply : List Char := ("❌ Please specify a task title.").data

/-- The task-creation handler `handle_task_creation` (src/main.py 476-489):
derive the title by boilerplate stripping; an empty result is a validation
error with no creation call; otherwise exactly one `create_task` call is
made with the derived title, and the reply reflects the call result
(`createOk` abstracts the external envelope; a failed call reports the
error, with the message abstracted). -/
def handleTaskCreation (msg : List Char) (createOk : Bool) : TaskOutcome :=
  let t := strippedTitle msg
  if t.isEmpty then { reply := noTitleReply, creates := [] }
  else if createOk then { reply := ("✅ Task created: ").data ++ t, creates := [t] }
  else { reply := ("❌ Error creating task: Unknown error").data, creates := [t] }

/-! ### The event branch of src/app.py `handle_message` (lines 95-101)

The webhook version of the pipeline: `analyze_message` returns parsed
`{intent, title, date, time}` fields, and for the event intent the handler
builds a calendar event whose start and end `dateTime` are the SAME string
built from the parsed date and time. -/

/-- A calendar event body as built by src/app.py 96-100. -/
structure AppEvent where
  summary : List Char
  startDT : List Char
  endDT : List Char
deriving DecidableEq

/-- The event construction of src/app.py `handle_message` (lines 95-101):
both `start.dateTime` and `end.dateTime` are the f-string of the parsed date
and time with a `:00` seconds suffix. -/
def appHandleEventBranch (title date time : List Char) : AppEvent :=
  { summary := title
    startDT := date ++ ("T").data ++ time ++ (":00").data
    endDT := date ++ ("T").data ++ time ++ (":00").data }

/-- Chronological reading of a fixed-format ISO `YYYY-MM-DDTHH:MM:SS`
string: the number formed by its digits in order (monotone in the instant,
since the format is fixed-width and zero-padded). -/
def isoDigits (s : List Char) : Nat := digitsToNat (s.filter isPyDigit)

/-! ### Shared lemmas -/

theorem buildDraft_toMin (now : DT) (msg : List Char) (st0 : DT) :
    (buildDraft now msg st0).end_time.toMin
      = (buildDraft now msg st0).start_time.toMin
        + 60 * durationHours (msg.map Char.toLower) := by
  simp [buildDraft, toMin_minToDT]

/-- Each task-view keyword contains a task-create keyword as a substring. -/
theorem taskView_contains_taskCreate (k : List Char) (hk : k ∈ taskViewKeywords) :
    ("task").data <:+: k ∨ ("todo").data <:+: k := by
  simp only [taskViewKeywords, List.mem_cons, List.not_mem_nil, or_false] at hk
  rcases hk with rfl | rfl | rfl | rfl
  · exact Or.inl ((infixB_iff _ _).mp (by rfl))
  · exact Or.inr ((infixB_iff _ _).mp (by rfl))
  · exact Or.inl ((infixB_iff _ _).mp (by rfl))
  · exact Or.inl ((infixB_iff _ _).mp (by rfl))

/-- If any task-view keyword occurs in the lowered message then some
task-create keyword does as well. -/
theorem taskView_implies_taskCreate (ml : List Char)
    (h : anyKw taskViewKeywords ml = true) : anyKw taskCreateKeywords ml = true := by
  rw [anyKw, List.any_eq_true] at h
  obtain ⟨k, hk, hinf⟩ := h
  rw [infixB_iff] at hinf
  rw [anyKw, List.any_eq_true]
  rcases taskView_contains_taskCreate k hk with hc | hc
  · exact ⟨("task").data, by simp [taskCreateKeywords],
      by rw [infixB_iff]; exact hc.trans hinf⟩
  · exact ⟨("todo").data, by simp [taskCreateKeywords],
      by rw [infixB_iff]; exact hc.trans hinf⟩

/-- C6: the intent classifier never returns the task-view action, because
every task-view keyword contains a task-create keyword as a substring and
the task-create branch is tested first. -/
theorem c6_confirmed (msg : List Char) : analyzeIntent msg ≠ IntentAction.getTasks := by
  intro hEq
  simp only [analyzeIntent] at hEq
  by_cases h1 : anyKw gmailKeywords (msg.map Char.toLower) = true
  · rw [if_pos h1] at hEq; exact IntentAction.noConfusion hEq
  rw [if_neg h1] at hEq
  by_cases h2 : anyKw calendarCreateKeywords (msg.map Char.toLower) = true
  · rw [if_pos h2] at hEq; exact IntentAction.noConfusion hEq
  rw [if_neg h2] at hEq
  by_cases h3 : anyKw calendarViewKeywords (msg.map Char.toLower) = true
  · rw [if_pos h3] at hEq; exact IntentAction.noConfusion hEq
  rw [if_neg h3] at hEq
  by_cases h4 : anyKw taskCreateKeywords (msg.map Char.toLower) = true
  · rw [if_pos h4] at hEq; exact IntentAction.noConfusion hEq
  rw [if_neg h4] at hEq
  by_cases h5 : anyKw taskViewKeywords (msg.map Char.toLower) = true
  · exact h4 (taskView_implies_taskCreate _ h5)
  rw [if_neg h5] at hEq
  exact IntentAction.noConfusion hEq

/-- C5: for every message containing "next week" and neither "today" nor
"tomorrow", any draft the fallback event builder produces starts on the
default base date (tomorrow) plus 7 days — tomorrow+7, not today+7 — with
the extracted or default hour and minute (the minute is 0 in every
non-erroring path). -/
theorem c5_confirmed (now : DT) (msg : List Char) (d : EventDraft)
    (h7 : infixB ("next week").data (msg.map Char.toLower) = true)
    (hT : infixB ("today").data (msg.map Char.toLower) = false)
    (hM : infixB ("tomorrow").data (msg.map Char.toLower) = false)
    (h : parseEventManually now msg = Except.ok d) :
    d.start_time.day = now.day + 1 + 7 ∧
    d.start_time.hour = (extractedHour (msg.map Char.toLower)).getD 10 ∧
    d.start_time.minute = 0 := by
  simp only [parseEventManually] at h
  by_cases hp1 : p1Search (msg.map Char.toLower) = true
  · rw [if_pos hp1] at h; exact absurd h (by simp)
  rw [if_neg hp1] at h
  cases hE : extractedHour (msg.map Char.toLower) with
  | none =>
    rw [hE] at h
    injection h with h'
    subst h'
    simp [buildDraft, dateAdjust, h7, hT, hM, hE]
  | some hr =>
    rw [hE] at h
    by_cases h24 : 24 ≤ hr
    · simp [h24] at h
    · simp only [h24, ite_false, if_neg, Except.ok.injEq] at h
      subst h
      simp [buildDraft, dateAdjust, h7, hT, hM, hE]

theorem c5_confirmed_witness :
    (18 : Nat) = 10 + 1 + 7 ∧
    (10 : Nat) = (extractedHour ((("plan trip next week").data).map Char.toLower)).getD 10 ∧
    (0 : Nat) = 0 := by
  have h := c5_confirmed ⟨10, 9, 0⟩ (("plan trip next week").data)
    ⟨("plan trip").data, ⟨18, 10, 0⟩, ⟨18, 11, 0⟩,
      ("Created from: plan trip next week").data⟩
    (by rfl) (by rfl) (by rfl) (by rfl)
  exact h

/-- C2 counterexample: the src/app.py event producer builds an event whose
end timestamp string equals its start timestamp string, so the end is not
strictly after the start. -/
theorem c2_counterexample :
    (appHandleEventBranch ("call mom").data ("2025-01-01").data ("10:00").data).endDT
      = (appHandleEventBranch ("call mom").data ("2025-01-01").data ("10:00").data).startDT ∧
    ¬ isoDigits (appHandleEventBranch ("call mom").data ("2025-01-01").data ("10:00").data).startDT
      < isoDigits (appHandleEventBranch ("call mom").data ("2025-01-01").data ("10:00").data).endDT :=
  ⟨rfl, by decide⟩

/-- C2 amended: the fallback event builder always sets
`end_time = start_time + duration`, so its drafts satisfy
`end_time > start_time` exactly when the extracted-or-default duration is
positive; the LLM extraction paths (src/main.py JSON path, src/app.py
`handle_message`) do not enforce the invariant. -/
theorem c2_amended (now : DT) (msg : List Char) (d : EventDraft)
    (h : parseEventManually now msg = Except.ok d) :
    d.end_time.toMin = d.start_time.toMin + 60 * durationHours (msg.map Char.toLower) ∧
    (0 < durationHours (msg.map Char.toLower) → d.start_time.toMin < d.end_time.toMin) := by
  simp only [parseEventManually] at h
  by_cases hp1 : p1Search (msg.map Char.toLower) = true
  · rw [if_pos hp1] at h; exact absurd h (by simp)
  rw [if_neg hp1] at h
  have key : ∀ st0 : DT, d = buildDraft now msg st0 →
      d.end_time.toMin = d.start_time.toMin + 60 * durationHours (msg.map Char.toLower) ∧
      (0 < durationHours (msg.map Char.toLower) → d.start_time.toMin < d.end_time.toMin) := by
    intro st0 hd
    subst hd
    refine ⟨buildDraft_toMin now msg st0, fun hdur => ?_⟩
    rw [buildDraft_toMin now msg st0]
    omega
  cases hE : extractedHour (msg.map Char.toLower) with
  | none =>
    rw [hE] at h
    injection h with h'
    exact key _ h'.symm
  | some hr =>
    rw [hE] at h
    by_cases h24 : 24 ≤ hr
    · simp [h24] at h
    · simp only [h24, ite_false, if_neg, Except.ok.injEq] at h
      exact key _ h.symm

theorem c2_amended_witness :
    (⟨6, 10, 0⟩ : DT).toMin < (⟨6, 12, 0⟩ : DT).toMin :=
  (c2_amended ⟨5, 12, 0⟩ (("standup for 2 hours").data)
    ⟨("standup for 2").data, ⟨6, 10, 0⟩, ⟨6, 12, 0⟩,
      ("Created from: standup for 2 hours").data⟩ (by rfl)).2 (by decide)

/-- C1 counterexample: an LLM response whose located JSON parses but lacks
the required `end_time` field makes `handle_calendar_creation` return the
validation-error reply instead of passing control to the fallback builder. -/
theorem c1_counterexample :
    handleCalendarCreation ("schedule sync").data
        (HttpOutcome.response 200
          (some (("\x7b\"title\": \"Sync\", \"start_time\": \"2025-01-01T10:00:00\"\x7d").data)))
      = CalResult.validationErr ∧
    handleCalendarCreation ("schedule sync").data
        (HttpOutcome.response 200
          (some (("\x7b\"title\": \"Sync\", \"start_time\": \"2025-01-01T10:00:00\"\x7d").data)))
      ≠ CalResult.fallback ("schedule sync").data :=
  ⟨rfl, by decide⟩

/-- C1 amended: when no JSON substring is located in the completion
response, or the located substring fails to parse, or the completion call
errors (non-200 status or raised transport error, whose apology responses
contain no brace), the extractor fabricates nothing and control passes to
the fallback builder with the original message; when the located JSON parses
but a required field (title, start_time, end_time) is missing, a
validation-error reply is returned instead and the fallback is NOT invoked. -/
theorem c1_amended (msg : List Char) (o : HttpOutcome) :
    (jsonExtract (aiChat o).response = none →
      handleCalendarCreation msg o = CalResult.fallback msg) ∧
    (∀ sub, jsonExtract (aiChat o).response = some sub → jsonParseFlat sub = none →
      handleCalendarCreation msg o = CalResult.fallback msg) ∧
    (∀ sub obj, jsonExtract (aiChat o).response = some sub → jsonParseFlat sub = some obj →
      requiredKeys.all (fun k => hasKey obj k) = false →
      handleCalendarCreation msg o = CalResult.validationErr) ∧
    (∀ status content, o = HttpOutcome.response status content → status ≠ 200 →
      handleCalendarCreation msg o = CalResult.fallback msg) ∧
    (∀ e, o = HttpOutcome.raised e → handleCalendarCreation msg o = CalResult.fallback msg) := by
  refine ⟨?_, ?_, ?_, ?_, ?_⟩
  · intro h
    simp only [handleCalendarCreation, h]
  · intro sub h1 h2
    simp only [handleCalendarCreation, h1, h2]
  · intro sub obj h1 h2 h3
    simp only [handleCalendarCreation, h1, h2, h3]
    simp
  · intro status content ho hne
    subst ho
    simp only [handleCalendarCreation, aiChat, if_neg hne]
    rw [show jsonExtract apologyStatus = none from rfl]
  · intro e ho
    subst ho
    simp only [handleCalendarCreation, aiChat]
    rw [show jsonExtract apologyExc = none from rfl]

theorem c1_amended_witness :
    handleCalendarCreation ("book a meeting").data (HttpOutcome.raised ("timeout").data)
      = CalResult.fallback ("book a meeting").data :=
  (c1_amended (("book a meeting").data)
    (HttpOutcome.raised ("timeout").data)).2.2.2.2 (("timeout").data) rfl

/-- Projection used to observe the start hour of a successful fallback run. -/
def okStartHour : Except (List Char) EventDraft → Option Nat
  | Except.ok d => some d.start_time.hour
  | Except.error _ => none

/-- C3 evaluation at the claimed inputs: the fallback builder extracts hour
9 for "call at 9pm" (not 21) and hour 12 for "call at 12am" (not 0),
because the AM/PM adjustment guard `len(match.groups()) >= 3` is false for
the two-group `H am/pm` pattern; "call at 12pm" yields 12 as claimed. -/
theorem c3_code_evaluation :
    okStartHour (parseEventManually ⟨7, 12, 0⟩ (("call at 9pm").data)) = some 9 ∧
    okStartHour (parseEventManually ⟨7, 12, 0⟩ (("call at 12am").data)) = some 12 ∧
    okStartHour (parseEventManually ⟨7, 12, 0⟩ (("call at 12pm").data)) = some 12 :=
  ⟨rfl, rfl, rfl⟩

/-- C4 evaluation: a plain colon time makes the fallback builder take the
error branch (pattern 1 matches, and `match.group(-1)` raises `IndexError`),
while a cue-free input does degrade to the default title/time/duration. -/
theorem c4_code_evaluation :
    parseEventManually ⟨50, 8, 15⟩ (("lunch at 12:30").data)
      = Except.error ("no such group").data ∧
    parseEventManually ⟨50, 8, 15⟩ (("quick chat").data)
      = Except.ok ⟨("quick chat").data, ⟨51, 10, 0⟩, ⟨51, 11, 0⟩,
          ("Created from: quick chat").data⟩ :=
  ⟨rfl, rfl⟩

/-- C7 evaluation: on the spec example "Team sync tomorrow at 14:30 for 2
hours" the fallback builder returns via its exception branch (pattern 1
matches "14:30" and `match.group(-1)` raises), producing no draft at all. -/
theorem c7_code_evaluation :
    parseEventManually ⟨100, 9, 0⟩ (("Team sync tomorrow at 14:30 for 2 hours").data)
      = Except.error ("no such group").data :=
  rfl

/-- C8: the task title is the message with the boilerplate substrings
removed and whitespace trimmed; an empty result is reported as a validation
error with no creation call and no default title, and otherwise exactly one
creation call is made with that title. -/
theorem c8_confirmed (msg : List Char) (createOk : Bool) :
    (strippedTitle msg = [] →
      handleTaskCreation msg createOk = { reply := noTitleReply, creates := [] }) ∧
    (strippedTitle msg ≠ [] →
      (handleTaskCreation msg createOk).creates = [strippedTitle msg]) := by
  constructor
  · intro h
    simp [handleTaskCreation, h]
  · intro h
    cases hEmp : (strippedTitle msg).isEmpty with
    | true => exact absurd (List.isEmpty_iff.mp hEmp) h
    | false => cases createOk <;> simp [handleTaskCreation, hEmp]

theorem c8_confirmed_witness :
    handleTaskCreation ("add task").data true = { reply := noTitleReply, creates := [] } ∧
    (handleTaskCreation ("buy milk task: now").data true).creates
      = [strippedTitle ("buy milk task: now").data] :=
  ⟨(c8_confirmed (("add task").data) true).1 (by rfl),
   (c8_confirmed (("buy milk task: now").data) true).2 (by decide)⟩

/-- C9: boilerplate stripping is case-sensitive and removes every occurrence
of the lowercase literals anywhere in the message; on "Add task: buy milk"
the capitalized "Add" survives and only "task:" is removed, yielding
"Add  buy milk", which is the title passed to the creation call. -/
theorem c9_confirmed :
    strippedTitle (("Add task: buy milk").data) = ("Add  buy milk").data ∧
    strippedTitle (("please add task and add task now").data) = ("please  and  now").data ∧
    (handleTaskCreation (("Add task: buy milk").data) true).creates
      = [("Add  buy milk").data] :=
  ⟨rfl, rfl, rfl⟩

/-- C10 counterexample: on HTTP 200 the `response` field is exactly the
completion text, so an empty completion yields an empty (not non-empty)
user-facing string. -/
theorem c10_counterexample :
    (aiChat (HttpOutcome.response 200 (some []))).response = [] :=
  rfl

/-- C10 amended: `ai_chat` is total and always returns an envelope with a
`response` field: on HTTP 200 with a well-formed body the completion text
(possibly empty) with `success: True` and no error key; in every other case
(non-200 status, malformed 200 body, raised transport error) an error
envelope whose `response` is one of the two fixed non-empty apologies. -/
theorem c10_amended (o : HttpOutcome) :
    ((aiChat o).error = none →
      ∃ t, o = HttpOutcome.response 200 (some t) ∧
        aiChat o = { response := t, success := true, error := none }) ∧
    ((aiChat o).error ≠ none →
      ((aiChat o).response = apologyStatus ∨ (aiChat o).response = apologyExc) ∧
        (aiChat o).response ≠ []) := by
  cases o with
  | response status content =>
    by_cases h2 : status = 200
    · subst h2
      cases content with
      | some t =>
        constructor
        · intro _
          exact ⟨t, rfl, rfl⟩
        · intro hne
          exact absurd rfl hne
      | none =>
        constructor
        · intro h
          simp [aiChat] at h
        · intro _
          exact ⟨Or.inr rfl, by decide⟩
    · constructor
      · intro h
        simp [aiChat, h2] at h
      · intro _
        refine ⟨Or.inl ?_, by simp [aiChat, h2]; decide⟩
        simp [aiChat, h2]
  | raised m =>
    constructor
    · intro h
      simp [aiChat] at h
    · intro _
      exact ⟨Or.inr rfl, (by decide : apologyExc ≠ [])⟩

theorem c10_amended_witness :
    (((aiChat (HttpOutcome.raised ("boom").data)).response = apologyStatus ∨
      (aiChat (HttpOutcome.raised ("boom").data)).response = apologyExc) ∧
      (aiChat (HttpOutcome.raised ("boom").data)).response ≠ []) :=
  (c10_amended (HttpOutcome.raised ("boom").data)).2 (by decide)
